import Mathlib

/-!
# AI Resume Analyser: the presentation layer

A shallow embedding of the two source files of the front-end:

* `App.jsx`: the component state (`resumeFile`, `jobDescription`, `analysis`,
  `loading`, `error`) and the handler `handleAnalyze`;
* `AnalysisCharts.jsx`: the data tables computed by `SkillCategoryChart`,
  `ScoreBreakdownChart`, `SkillRadarChart` and `RecommendationPriorityChart`.

Conventions of the embedding.

* A JavaScript string is a Lean `String` (a sequence of Unicode scalar values).
* A JavaScript object is the list of its own enumerable properties, in the
  order `Object.keys` reports them.  A lookup `obj[k]` finds the own property
  `k`, and when there is none goes on to `Object.prototype`, whose members are
  listed in `objectPrototype`.
* `null` and `undefined` are both `none` where the code only tests truthiness.
* An asynchronous handler is the list of effects it performs, in order: the
  state setters it calls and the requests it sends.  The answer of the network
  is a parameter.
* A JavaScript number is a double, kept as the rational it denotes.  Each
  arithmetic operation is the exact operation followed by `toDouble`, the
  rounding to the nearest double with ties to the even mantissa.  The range of
  the exponent is not bounded: array lengths are below `2 ^ 32`, so the
  numbers met here are far from overflow and from the subnormal range.
-/

namespace ResumeAnalyser

/-! ## JavaScript values and strings -/

/-- A decoded JSON value (`undefined` stands for an absent property). -/
inductive JsVal where
  | undefined
  | null
  | bool (b : Bool)
  | num (q : Rat)
  | str (s : String)
  | arr (items : List JsVal)
  | obj (fields : List (String × JsVal))

/-- JavaScript truthiness: `undefined`, `null`, `false`, `0` and `''` are
falsy, everything else (arrays and objects included) is truthy. -/
def JsVal.truthy : JsVal → Bool
  | .undefined => false
  | .null => false
  | .bool b => b
  | .num q => decide (q ≠ 0)
  | .str s => decide (s ≠ "")
  | .arr _ => true
  | .obj _ => true

/-- The characters `String.prototype.trim` strips: ECMAScript `WhiteSpace`
(TAB, VT, FF, SP, NBSP, ZWNBSP and the other space separators) and
`LineTerminator` (LF, CR, LS, PS). -/
def isJsWhiteSpace (c : Char) : Bool :=
  let n := c.toNat
  n == 0x09 || n == 0x0A || n == 0x0B || n == 0x0C || n == 0x0D || n == 0x20 ||
  n == 0xA0 || n == 0x1680 || (0x2000 ≤ n && n ≤ 0x200A) || n == 0x2028 ||
  n == 0x2029 || n == 0x202F || n == 0x205F || n == 0x3000 || n == 0xFEFF

/-- The method `String.prototype.trim`: white space removed at both ends. -/
def trim (s : String) : String :=
  String.mk ((s.data.dropWhile isJsWhiteSpace).reverse.dropWhile isJsWhiteSpace).reverse

/-! ## The data contract -/

/-- A category-keyed collection of skills, as decoded from the response: the
value of a key is a list of skill names, or `none` for `null`. -/
abbrev SkillSet := List (String × Option (List String))

/-- The `analysis` object of a response.  The three scores are kept as raw
JSON values, `recommendations` is `none` when the field is absent. -/
structure Analysis where
  similarity_score : JsVal
  skill_match_score : JsVal
  composite_score : JsVal
  job_skills : SkillSet
  matching_skills : SkillSet
  missing_skills : SkillSet
  matching_keywords : List String
  missing_keywords : List String
  recommendations : Option (List String)

/-- An uploaded file. -/
structure File where
  name : String
  bytes : List Nat
  deriving DecidableEq

/-- A value of a multipart form field. -/
inductive FormValue where
  | file (f : File)
  | text (s : String)
  deriving DecidableEq

/-- A request handed to `fetch`: the URL, the method and the form entries in
the order they were appended. -/
structure Request where
  url : String
  method : String
  body : List (String × FormValue)
  deriving DecidableEq

/-- The decoded body of a response, read through its three properties. -/
structure ResponseData where
  success : JsVal
  analysis : Option Analysis
  error : Option String

/-- What the network gives back for a request: `fetch` rejects, or
`response.json()` throws, or the body decodes (`decoded none` is the JSON
value `null`, on which a property access throws). -/
inductive FetchOutcome where
  | fetchRejected (err : String)
  | jsonThrows (err : String)
  | decoded (data : Option ResponseData)

/-! ## `App.jsx` -/

/-- The five `useState` cells of `App`. -/
structure AppState where
  resumeFile : Option File
  jobDescription : String
  analysis : Option Analysis
  loading : Bool
  error : String

/-- A step of a handler: a call of a state setter, or a call of `fetch`. -/
inductive Effect where
  | setError (e : String)
  | setLoading (b : Bool)
  | setAnalysis (a : Option Analysis)
  | fetch (r : Request)

/-- The effect of one step on the state (`fetch` leaves it alone). -/
def applyEffect (s : AppState) : Effect → AppState
  | .setError e => { s with error := e }
  | .setLoading b => { s with loading := b }
  | .setAnalysis a => { s with analysis := a }
  | .fetch _ => s

/-- The requests among a list of effects. -/
def requestsOf (es : List Effect) : List Request :=
  es.filterMap fun e => match e with
    | .fetch r => some r
    | _ => none

/-- The request `handleAnalyze` builds: a `FormData` with the two fields
appended in order, posted to the analysis endpoint. -/
def analyzeRequest (resumeFile : File) (jobDescription : String) : Request :=
  { url := "/api/analyze"
    method := "POST"
    body := [("resume", .file resumeFile), ("job_description", .text jobDescription)] }

/-- The expression `data.error || 'Analysis failed'`. -/
def errorOrDefault : Option String → String
  | some e => if e ≠ "" then e else "Analysis failed"
  | none => "Analysis failed"

/-- The handler `handleAnalyze`, as the list of effects it performs. -/
def handleAnalyze (s : AppState) (net : Request → FetchOutcome) : List Effect :=
  match s.resumeFile with
  | none => [.setError "Please upload a resume and enter a job description"]
  | some file =>
    if trim s.jobDescription = "" then
      [.setError "Please upload a resume and enter a job description"]
    else
      let req := analyzeRequest file s.jobDescription
      [.setLoading true, .setError "", .fetch req] ++
      (match net req with
        | .decoded (some data) =>
          if data.success.truthy then [Effect.setAnalysis data.analysis]
          else [Effect.setError (errorOrDefault data.error)]
        | _ => [Effect.setError "Failed to connect to the server. Please try again."]) ++
      [.setLoading false]

/-- The state once `handleAnalyze` has run to its end. -/
def runHandleAnalyze (s : AppState) (net : Request → FetchOutcome) : AppState :=
  (handleAnalyze s net).foldl applyEffect s

/-! ## `AnalysisCharts.jsx` -/

/-- The call `Object.keys(o)`. -/
def objectKeys (o : SkillSet) : List String :=
  o.map Prod.fst

/-- The skills a skill set holds for a category: the list stored under the own
key, and the empty list when the key is absent or its value is `null`.  For an
own key this is `o[category] || []`; for an absent key the lookup of the code
goes on to the prototype, see `lookupOrEmpty`. -/
def skillsOrEmpty (o : SkillSet) (category : String) : List String :=
  match o.lookup category with
  | some (some skills) => skills
  | _ => []

/-- What `o[category] || []` can evaluate to: an array of skills, a function
inherited from `Object.prototype`, or `Object.prototype` itself. -/
inductive PropertyValue where
  | array (skills : List String)
  | function (arity : Nat)
  | prototypeObject
  deriving DecidableEq

/-- The members of `Object.prototype` (ECMAScript, Annex B included): the
functions with their `length`, and the accessor `__proto__`, which returns
the prototype of the object, `Object.prototype` itself.  All are truthy. -/
def objectPrototype : List (String × PropertyValue) :=
  [("constructor", .function 1), ("hasOwnProperty", .function 1),
   ("isPrototypeOf", .function 1), ("propertyIsEnumerable", .function 1),
   ("toLocaleString", .function 0), ("toString", .function 0), ("valueOf", .function 0),
   ("__defineGetter__", .function 2), ("__defineSetter__", .function 2),
   ("__lookupGetter__", .function 1), ("__lookupSetter__", .function 1),
   ("__proto__", .prototypeObject)]

/-- The expression `o[category] || []`: the own property when there is one
(`null` is falsy and gives `[]`), else the member of `Object.prototype` of
that name, else `undefined`, which is falsy and gives `[]`. -/
def lookupOrEmpty (o : SkillSet) (category : String) : PropertyValue :=
  match o.lookup category with
  | some (some skills) => .array skills
  | some none => .array []
  | none =>
    match objectPrototype.lookup category with
    | some member => member
    | none => .array []

/-- The property `length`: the number of elements of an array, the number of
parameters of a function, and `undefined` (`none`) for `Object.prototype`. -/
def PropertyValue.length : PropertyValue → Option Nat
  | .array skills => some skills.length
  | .function arity => some arity
  | .prototypeObject => none

/-- The test `n > 0` on a `length`: false for `undefined`. -/
def lengthPositive : Option Nat → Bool
  | some n => decide (n > 0)
  | none => false

/-- A number computed by a chart: a double, or `NaN`. -/
inductive JsNumber where
  | nan
  | finite (q : Rat)
  deriving DecidableEq

/-- A numeral as a number of a chart. -/
instance instOfNatJsNumber (n : Nat) : OfNat JsNumber n :=
  ⟨JsNumber.finite n⟩

/-- The test `x > 0` on a number: false for `NaN`. -/
def JsNumber.isPositive : JsNumber → Bool
  | .nan => false
  | .finite q => decide (q > 0)

/-- The class `\w` of a regular expression without the `u` flag. -/
def isWordChar (c : Char) : Bool :=
  c.isAlphanum || c == '_'

/-- The call `s.replace(old, new)` with a one-character string pattern: only
the first occurrence is replaced. -/
def replaceFirst (old new : Char) : List Char → List Char
  | [] => []
  | c :: cs => if c = old then new :: cs else c :: replaceFirst old new cs

/-- The call `s.replace(/\b\w/g, l => l.toUpperCase())`: every word character
that does not follow a word character is upper-cased.  `prevIsWord` tells
whether the character before the current position is a word character. -/
def capitalizeWords (prevIsWord : Bool) : List Char → List Char
  | [] => []
  | c :: cs =>
    (if isWordChar c && !prevIsWord then c.toUpper else c) :: capitalizeWords (isWordChar c) cs

/-- The label of a category:
`category.replace('_', ' ').replace(/\b\w/g, l => l.toUpperCase())`. -/
def categoryLabel (category : String) : String :=
  String.mk (capitalizeWords false (replaceFirst '_' ' ' category.data))

/-- The method `String.prototype.toLowerCase` on the letters `A`..`Z`; every
other character is left as it is.  The definition is exact on strings of
ASCII characters and only there: the method also lower-cases letters outside
ASCII, so what is proved through this definition is stated for ASCII keys. -/
def toLowerCase (s : String) : String :=
  String.mk (s.data.map Char.toLower)

/-- Rounding of a rational to the nearest integer; of two nearest integers the
even one is taken. -/
def roundHalfEven (q : Rat) : Int :=
  let f := ⌊q⌋
  let r := q - f
  if r < 1 / 2 then f else if 1 / 2 < r then f + 1 else if f % 2 = 0 then f else f + 1

/-- The double nearest to a rational (IEEE 754 binary64, round to nearest, ties
to even): with `2 ^ e ≤ |q| < 2 ^ (e + 1)`, the multiple of `2 ^ (e - 52)`
nearest to `q`, which has a mantissa of 53 bits. -/
def toDouble (q : Rat) : Rat :=
  if q = 0 then 0
  else
    let ulp : Rat := 2 ^ (Int.log 2 |q| - 52)
    (roundHalfEven (q / ulp) : Rat) * ulp

/-- The value `(matched / required) * 100` guarded by `required > 0`, for two
lengths that are numbers: a division and a multiplication of doubles, each
rounded. -/
def ratePercent (matched required : Nat) : Rat :=
  if required > 0 then toDouble (toDouble ((matched : Rat) / (required : Rat)) * 100) else 0

/-- The expression
`jobSkills.length > 0 ? (matchingSkills.length / jobSkills.length) * 100 : 0`,
shared by `matchRate` of `SkillCategoryChart` and `score` of `SkillRadarChart`.
An `undefined` length of `jobSkills` fails the guard; an `undefined` length of
`matchingSkills` past the guard makes the quotient `NaN`. -/
def rateOf (matched required : Option Nat) : JsNumber :=
  match matched, required with
  | some m, some j => .finite (ratePercent m j)
  | none, some j => if j > 0 then .nan else 0
  | _, none => 0

/-- An entry of `categoryData`; a count is `none` when it is `undefined`. -/
structure CategoryDatum where
  category : String
  required : Option Nat
  matched : Option Nat
  missing : Option Nat
  matchRate : JsNumber
  deriving DecidableEq

/-- The entry `SkillCategoryChart` computes for one key of `job_skills`. -/
def categoryItem (a : Analysis) (category : String) : CategoryDatum :=
  let jobSkills := lookupOrEmpty a.job_skills category
  let matchingSkills := lookupOrEmpty a.matching_skills category
  let missingSkills := lookupOrEmpty a.missing_skills category
  { category := categoryLabel category
    required := jobSkills.length
    matched := matchingSkills.length
    missing := missingSkills.length
    matchRate := rateOf matchingSkills.length jobSkills.length }

/-- The table `categoryData` of `SkillCategoryChart`. -/
def categoryData (a : Analysis) : List CategoryDatum :=
  ((objectKeys a.job_skills).map (categoryItem a)).filter fun item =>
    lengthPositive item.required

/-- The component `SkillCategoryChart`: `none` when it renders nothing, else
the data of its bar chart. -/
def SkillCategoryChart (analysis : Option Analysis) : Option (List CategoryDatum) :=
  match analysis with
  | none => none
  | some a => some (categoryData a)

/-- An entry of `scoreData`. -/
structure ScoreDatum where
  name : String
  value : JsVal
  color : String

/-- The table `scoreData` of `ScoreBreakdownChart`. -/
def scoreData (a : Analysis) : List ScoreDatum :=
  [ { name := "Content Similarity", value := a.similarity_score, color := "#3b82f6" },
    { name := "Skill Match", value := a.skill_match_score, color := "#8b5cf6" },
    { name := "Overall Match", value := a.composite_score, color := "#10b981" } ]

/-- The component `ScoreBreakdownChart`: `none` when it renders nothing, else
the data of its bar chart. -/
def ScoreBreakdownChart (analysis : Option Analysis) : Option (List ScoreDatum) :=
  match analysis with
  | none => none
  | some a => some (scoreData a)

/-- An entry of `radarData`. -/
structure RadarDatum where
  category : String
  score : JsNumber
  fullMark : Nat
  deriving DecidableEq

/-- The entry `SkillRadarChart` computes for one key of `job_skills`. -/
def radarItem (a : Analysis) (category : String) : RadarDatum :=
  let jobSkills := lookupOrEmpty a.job_skills category
  let matchingSkills := lookupOrEmpty a.matching_skills category
  { category := categoryLabel category
    score := rateOf matchingSkills.length jobSkills.length
    fullMark := 100 }

/-- The filter of `SkillRadarChart`: the score is positive, or the label,
lower-cased and with its first space turned into an underscore, is a key of
`job_skills`. -/
def radarKeep (a : Analysis) (item : RadarDatum) : Bool :=
  item.score.isPositive ||
    (objectKeys a.job_skills).contains
      (String.mk (replaceFirst ' ' '_' (toLowerCase item.category).data))

/-- The table `radarData` of `SkillRadarChart`: map, filter, `slice(0, 6)`. -/
def radarData (a : Analysis) : List RadarDatum :=
  (((objectKeys a.job_skills).map (radarItem a)).filter (radarKeep a)).take 6

/-- The component `SkillRadarChart`: `none` when it renders nothing, else the
data of its radar chart. -/
def SkillRadarChart (analysis : Option Analysis) : Option (List RadarDatum) :=
  match analysis with
  | none => none
  | some a => some (radarData a)

/-- The method `String.prototype.includes`: `needle` occurs in `s` as a
contiguous run of characters. -/
def includes (s needle : String) : Bool :=
  s.data.tails.any fun t => needle.data.isPrefixOf t

/-- An entry of `priorityData`. -/
structure PriorityDatum where
  priority : String
  count : Nat
  color : String
  deriving DecidableEq

/-- The test of the high-priority bucket. -/
def isHigh (rec : String) : Bool :=
  includes rec "Consider adding" || includes rec "Focus on"

/-- The test of the medium-priority bucket. -/
def isMedium (rec : String) : Bool :=
  includes rec "Include" || includes rec "Highlight"

/-- The test of the low-priority bucket. -/
def isLow (rec : String) : Bool :=
  includes rec "Good" || includes rec "Excellent"

/-- The three buckets of `RecommendationPriorityChart`, before the filter that
drops the empty ones. -/
def priorityBuckets (recommendations : List String) : List PriorityDatum :=
  [ { priority := "High Priority", count := (recommendations.filter isHigh).length,
      color := "#ef4444" },
    { priority := "Medium Priority", count := (recommendations.filter isMedium).length,
      color := "#f59e0b" },
    { priority := "Low Priority", count := (recommendations.filter isLow).length,
      color := "#10b981" } ]

/-- The table `priorityData` of `RecommendationPriorityChart`. -/
def priorityData (recommendations : List String) : List PriorityDatum :=
  (priorityBuckets recommendations).filter fun item => decide (item.count > 0)

/-- The component `RecommendationPriorityChart`: `none` when it renders
nothing (no analysis, or no `recommendations`), else the data of its chart. -/
def RecommendationPriorityChart (analysis : Option Analysis) : Option (List PriorityDatum) :=
  match analysis with
  | none => none
  | some a =>
    match a.recommendations with
    | none => none
    | some recommendations => some (priorityData recommendations)

/-! ## Sample data -/

/-- The analysis of the end-to-end scenario of the specification: the resume
"Python, SQL, communication" against "Requires Python, Java, SQL, leadership". -/
def scenarioAnalysis : Analysis :=
  { similarity_score := .num 40
    skill_match_score := .num 50
    composite_score := .num 45
    job_skills :=
      [("programming_languages", some ["Python", "Java", "SQL"]),
       ("soft_skills", some ["leadership"])]
    matching_skills := [("programming_languages", some ["Python", "SQL"])]
    missing_skills :=
      [("programming_languages", some ["Java"]), ("soft_skills", some ["leadership"])]
    matching_keywords := ["Python", "SQL"]
    missing_keywords := ["Java", "leadership"]
    recommendations := some ["Consider adding Java", "Focus on leadership"] }

/-- A resume file. -/
def sampleFile : File :=
  { name := "resume.txt", bytes := [80, 121] }

/-- A state that passes the validation of `handleAnalyze` and already shows a
previous result. -/
def readyState : AppState :=
  { resumeFile := some sampleFile
    jobDescription := " Requires Python, Java, SQL, leadership\n"
    analysis := some scenarioAnalysis
    loading := false
    error := "" }

/-- A state with a file and a job description made of white space only. -/
def blankState : AppState :=
  { readyState with jobDescription := " \n\t " }

/-- An analysis whose scores are outside the contract: a negative number, a
fraction above 100, and a string. -/
def oddScores : Analysis :=
  { scenarioAnalysis with
    similarity_score := .num (-5)
    skill_match_score := .num (2507 / 10)
    composite_score := .str "n/a" }

/-- An analysis whose only category requires no skill. -/
def zeroRequirement : Analysis :=
  { scenarioAnalysis with
    job_skills := [("soft_skills", some [])]
    matching_skills := []
    missing_skills := [] }

/-- The characters of a taxonomy key such as `programming_languages`:
lower-case ASCII letters, digits and the underscore. -/
def isSnakeChar (c : Char) : Bool :=
  c.isLower || c.isDigit || c == '_'

/-- A key made of lower-case ASCII letters, digits and underscores. -/
def isSnakeKey (category : String) : Bool :=
  category.data.all isSnakeChar

/-- In how many of the three priority buckets a recommendation is counted. -/
def bucketsOf (rec : String) : Nat :=
  (if isHigh rec then 1 else 0) + (if isMedium rec then 1 else 0) + (if isLow rec then 1 else 0)

/-- An analysis with seven categories: the first six require no skill, the
seventh requires one skill, which the resume has. -/
def sevenCategories : Analysis :=
  { scenarioAnalysis with
    job_skills :=
      [("programming_languages", some []), ("frameworks", some []), ("databases", some []),
       ("cloud", some []), ("tools", some []), ("soft_skills", some []),
       ("languages", some ["English"])]
    matching_skills := [("languages", some ["English"])]
    missing_skills := [] }

/-- An analysis with one category of twenty required skills, eleven of which
the resume has. -/
def elevenOfTwenty : Analysis :=
  { scenarioAnalysis with
    job_skills :=
      [("skills", some ["s01", "s02", "s03", "s04", "s05", "s06", "s07", "s08", "s09", "s10",
          "s11", "s12", "s13", "s14", "s15", "s16", "s17", "s18", "s19", "s20"])]
    matching_skills :=
      [("skills", some ["s01", "s02", "s03", "s04", "s05", "s06", "s07", "s08", "s09", "s10",
          "s11"])]
    missing_skills :=
      [("skills", some ["s12", "s13", "s14", "s15", "s16", "s17", "s18", "s19", "s20"])] }

/-- An analysis whose only category is named like a member of
`Object.prototype`: one required skill, which the resume lacks. -/
def constructorCategory : Analysis :=
  { scenarioAnalysis with
    job_skills := [("constructor", some ["Java"])]
    matching_skills := []
    missing_skills := [("constructor", some ["Java"])] }

/-- The lookup `o[category]` ends at the object or finds nothing: the key is
an own key of `o`, or it is not the name of a member of `Object.prototype`. -/
def readsOwn (o : SkillSet) (category : String) : Prop :=
  o.lookup category ≠ none ∨ objectPrototype.lookup category = none

/-- The invariant of the data model, for the keys of `job_skills`: the three
lists of a category have no duplicates, every matching skill is a required
skill, and the missing skills are the required skills without the matching
ones, in the order of the required skills. -/
def dataModelInvariant (a : Analysis) : Prop :=
  ∀ c ∈ objectKeys a.job_skills,
    (skillsOrEmpty a.job_skills c).Nodup ∧
    (skillsOrEmpty a.matching_skills c).Nodup ∧
    (skillsOrEmpty a.missing_skills c).Nodup ∧
    (skillsOrEmpty a.matching_skills c) ⊆ (skillsOrEmpty a.job_skills c) ∧
    skillsOrEmpty a.missing_skills c =
      (skillsOrEmpty a.job_skills c).filter fun x =>
        decide (x ∉ skillsOrEmpty a.matching_skills c)

/-! ## `handleAnalyze` -/

/-- The effects of `handleAnalyze` on a state that passes its validation. -/
theorem handleAnalyze_of_valid (s : AppState) (f : File) (net : Request → FetchOutcome)
    (hf : s.resumeFile = some f) (hj : trim s.jobDescription ≠ "") :
    handleAnalyze s net =
      [Effect.setLoading true, Effect.setError "",
        Effect.fetch (analyzeRequest f s.jobDescription)] ++
      (match net (analyzeRequest f s.jobDescription) with
        | .decoded (some data) =>
          if data.success.truthy then [Effect.setAnalysis data.analysis]
          else [Effect.setError (errorOrDefault data.error)]
        | _ => [Effect.setError "Failed to connect to the server. Please try again."]) ++
      [Effect.setLoading false] := by
  simp [handleAnalyze, hf, hj]

/-- The effects of `handleAnalyze` on a state that fails its validation. -/
theorem handleAnalyze_of_invalid (s : AppState) (net : Request → FetchOutcome)
    (h : s.resumeFile = none ∨ trim s.jobDescription = "") :
    handleAnalyze s net =
      [Effect.setError "Please upload a resume and enter a job description"] := by
  unfold handleAnalyze
  cases hr : s.resumeFile with
  | none => rfl
  | some f =>
    rcases h with h | h
    · simp [hr] at h
    · simp [h]

/-- C1: in a state with a resume file and a job description that is not blank,
when the decoded response has a falsy `success`, `handleAnalyze` never calls
`setAnalysis` and the `analysis` state is what it was before, whatever the
`analysis` field of the response holds. -/
theorem handleAnalyze_failure_keeps_analysis (s : AppState) (f : File)
    (net : Request → FetchOutcome) (d : ResponseData)
    (hf : s.resumeFile = some f) (hj : trim s.jobDescription ≠ "")
    (hnet : net (analyzeRequest f s.jobDescription) = FetchOutcome.decoded (some d))
    (hs : d.success.truthy = false) :
    (∀ a, Effect.setAnalysis a ∉ handleAnalyze s net) ∧
      (runHandleAnalyze s net).analysis = s.analysis := by
  rw [runHandleAnalyze, handleAnalyze_of_valid s f net hf hj, hnet]
  simp [hs, applyEffect]

/-- C1, at a sample input: a failing response that carries an `analysis`
field leaves the previous result in place. -/
theorem handleAnalyze_failure_keeps_analysis_witness :
    trim readyState.jobDescription ≠ "" ∧
      (∀ a, Effect.setAnalysis a ∉ handleAnalyze readyState fun _ =>
        FetchOutcome.decoded (some ⟨.bool false, some scenarioAnalysis, some "Unsupported"⟩)) ∧
      (runHandleAnalyze readyState fun _ =>
        FetchOutcome.decoded (some ⟨.bool false, some scenarioAnalysis, some "Unsupported"⟩)).analysis
        = readyState.analysis :=
  ⟨by decide,
    handleAnalyze_failure_keeps_analysis readyState sampleFile _
      ⟨.bool false, some scenarioAnalysis, some "Unsupported"⟩ rfl (by decide) rfl rfl⟩

/-- C2, refuted as stated: for a failing response whose `error` is the empty
string, the `error` state is not the empty string but the fallback text. -/
theorem handleAnalyze_empty_error_not_verbatim :
    (runHandleAnalyze readyState fun _ =>
        FetchOutcome.decoded (some ⟨.bool false, none, some ""⟩)).error = "Analysis failed" ∧
      (runHandleAnalyze readyState fun _ =>
        FetchOutcome.decoded (some ⟨.bool false, none, some ""⟩)).error ≠ "" := by
  constructor
  · rfl
  · decide

/-- C2, amended: when the decoded response has a falsy `success` and its
`error` field is the string `e`, the `error` state after `handleAnalyze` is `e`
itself if `e` is not empty, and the fallback `'Analysis failed'` if it is. -/
theorem handleAnalyze_failure_error (s : AppState) (f : File)
    (net : Request → FetchOutcome) (d : ResponseData) (e : String)
    (hf : s.resumeFile = some f) (hj : trim s.jobDescription ≠ "")
    (hnet : net (analyzeRequest f s.jobDescription) = FetchOutcome.decoded (some d))
    (hs : d.success.truthy = false) (he : d.error = some e) :
    (runHandleAnalyze s net).error = if e = "" then "Analysis failed" else e := by
  rw [runHandleAnalyze, handleAnalyze_of_valid s f net hf hj, hnet]
  by_cases h : e = "" <;> simp [hs, he, applyEffect, errorOrDefault, h]

/-- C2, at a sample input: a non-empty error message is shown as it is. -/
theorem handleAnalyze_failure_error_witness :
    trim readyState.jobDescription ≠ "" ∧
      (runHandleAnalyze readyState fun _ =>
        FetchOutcome.decoded (some ⟨.bool false, none, some "Unsupported  format "⟩)).error
        = "Unsupported  format " :=
  ⟨by decide,
    handleAnalyze_failure_error readyState sampleFile _
      ⟨.bool false, none, some "Unsupported  format "⟩ "Unsupported  format "
      rfl (by decide) rfl rfl rfl⟩

/-- C3: in a state that passes validation, when `fetch` rejects or
`response.json()` throws, with whatever error, `handleAnalyze` ends with the
fixed connectivity message in `error`, `analysis` as it was, and `loading`
false. -/
theorem handleAnalyze_thrown (s : AppState) (f : File)
    (net : Request → FetchOutcome) (err : String)
    (hf : s.resumeFile = some f) (hj : trim s.jobDescription ≠ "")
    (hnet : net (analyzeRequest f s.jobDescription) = FetchOutcome.fetchRejected err ∨
      net (analyzeRequest f s.jobDescription) = FetchOutcome.jsonThrows err) :
    (runHandleAnalyze s net).error = "Failed to connect to the server. Please try again." ∧
      (runHandleAnalyze s net).analysis = s.analysis ∧
      (runHandleAnalyze s net).loading = false := by
  rw [runHandleAnalyze, handleAnalyze_of_valid s f net hf hj]
  rcases hnet with h | h <;> simp [h, applyEffect]

/-- C3, at a sample input: a rejected `fetch`. -/
theorem handleAnalyze_thrown_witness :
    trim readyState.jobDescription ≠ "" ∧
      (runHandleAnalyze readyState fun _ => FetchOutcome.fetchRejected "TypeError").error
        = "Failed to connect to the server. Please try again." ∧
      (runHandleAnalyze readyState fun _ => FetchOutcome.fetchRejected "TypeError").analysis
        = readyState.analysis ∧
      (runHandleAnalyze readyState fun _ => FetchOutcome.fetchRejected "TypeError").loading
        = false :=
  ⟨by decide,
    handleAnalyze_thrown readyState sampleFile _ "TypeError" rfl (by decide) (Or.inl rfl)⟩

/-- The requests `handleAnalyze` sends from a state that passes validation:
the one it builds, whatever the network answers. -/
theorem requestsOf_handleAnalyze_of_valid (s : AppState) (f : File)
    (net : Request → FetchOutcome)
    (hf : s.resumeFile = some f) (hj : trim s.jobDescription ≠ "") :
    requestsOf (handleAnalyze s net) = [analyzeRequest f s.jobDescription] := by
  rw [handleAnalyze_of_valid s f net hf hj]
  cases net (analyzeRequest f s.jobDescription) with
  | fetchRejected err => simp [requestsOf]
  | jsonThrows err => simp [requestsOf]
  | decoded data =>
    cases data with
    | none => simp [requestsOf]
    | some d => cases hd : d.success.truthy <;> simp [requestsOf, hd]

/-- C4: when no resume file is selected or the job description is empty after
trimming, `handleAnalyze` performs the single step `setError` with the
validation message: no request is sent, `analysis` and `loading` keep their
values.  Hence every request that any run of `handleAnalyze` sends carries a
resume file and a job description that is not empty after trimming. -/
theorem handleAnalyze_validation (s : AppState) (net : Request → FetchOutcome)
    (h : s.resumeFile = none ∨ trim s.jobDescription = "") :
    (requestsOf (handleAnalyze s net) = [] ∧
      (runHandleAnalyze s net).error = "Please upload a resume and enter a job description" ∧
      (runHandleAnalyze s net).analysis = s.analysis ∧
      (runHandleAnalyze s net).loading = s.loading) ∧
    (∀ (s1 : AppState) (net1 : Request → FetchOutcome) (r : Request),
      r ∈ requestsOf (handleAnalyze s1 net1) →
        ∃ (f : File) (jd : String),
          r.body = [("resume", FormValue.file f), ("job_description", FormValue.text jd)] ∧
          trim jd ≠ "") := by
  constructor
  · rw [runHandleAnalyze, handleAnalyze_of_invalid s net h]
    simp [requestsOf, applyEffect]
  · intro s1 net1 r hr
    by_cases hv : s1.resumeFile = none ∨ trim s1.jobDescription = ""
    · rw [handleAnalyze_of_invalid s1 net1 hv] at hr
      simp [requestsOf] at hr
    · rw [not_or] at hv
      obtain ⟨f, hf⟩ := Option.ne_none_iff_exists'.mp hv.1
      rw [requestsOf_handleAnalyze_of_valid s1 f net1 hf hv.2] at hr
      rw [List.mem_singleton] at hr
      exact ⟨f, s1.jobDescription, by rw [hr]; rfl, hv.2⟩

/-- C4, at a sample input: a job description of white space only. -/
theorem handleAnalyze_validation_witness :
    trim blankState.jobDescription = "" ∧
      requestsOf (handleAnalyze blankState fun _ => FetchOutcome.fetchRejected "") = [] ∧
      (runHandleAnalyze blankState fun _ => FetchOutcome.fetchRejected "").error
        = "Please upload a resume and enter a job description" :=
  ⟨by decide,
    (handleAnalyze_validation blankState (fun _ => FetchOutcome.fetchRejected "")
      (Or.inr (by decide))).1.1,
    (handleAnalyze_validation blankState (fun _ => FetchOutcome.fetchRejected "")
      (Or.inr (by decide))).1.2.1⟩

/-- C5: from a state that passes validation, whatever the network answers
(success, failure, thrown error), one run of `handleAnalyze` sends exactly one
request: a POST to `/api/analyze` whose form holds the two fields `resume`
(the selected file) and `job_description` (the text as entered, not trimmed),
in that order. -/
theorem handleAnalyze_single_post (s : AppState) (f : File)
    (net : Request → FetchOutcome)
    (hf : s.resumeFile = some f) (hj : trim s.jobDescription ≠ "") :
    requestsOf (handleAnalyze s net) =
      [{ url := "/api/analyze"
         method := "POST"
         body := [("resume", FormValue.file f),
                  ("job_description", FormValue.text s.jobDescription)] }] := by
  rw [requestsOf_handleAnalyze_of_valid s f net hf hj]
  rfl

/-- C5, at a sample input: the job description is sent with its leading blank
and trailing line feed. -/
theorem handleAnalyze_single_post_witness :
    trim readyState.jobDescription ≠ "" ∧
      requestsOf (handleAnalyze readyState fun _ => FetchOutcome.jsonThrows "SyntaxError") =
        [{ url := "/api/analyze"
           method := "POST"
           body := [("resume", FormValue.file sampleFile),
                    ("job_description",
                      FormValue.text " Requires Python, Java, SQL, leadership\n")] }] :=
  ⟨by decide,
    handleAnalyze_single_post readyState sampleFile _ rfl (by decide)⟩

/-- C6: for a response with a truthy `success` and `analysis` field `a`,
`handleAnalyze` stores `a` as it is and leaves `error` empty; and the data of
`ScoreBreakdownChart` for an analysis are three entries whose values are its
`similarity_score`, `skill_match_score` and `composite_score`, in that order,
each passed through as the JSON value it is. -/
theorem handleAnalyze_success_passthrough (s : AppState) (f : File)
    (net : Request → FetchOutcome) (d : ResponseData)
    (hf : s.resumeFile = some f) (hj : trim s.jobDescription ≠ "")
    (hnet : net (analyzeRequest f s.jobDescription) = FetchOutcome.decoded (some d))
    (hs : d.success.truthy = true) :
    (runHandleAnalyze s net).analysis = d.analysis ∧
      (runHandleAnalyze s net).error = "" ∧
      (∀ a : Analysis, d.analysis = some a →
        ScoreBreakdownChart (runHandleAnalyze s net).analysis =
          some [{ name := "Content Similarity", value := a.similarity_score, color := "#3b82f6" },
                { name := "Skill Match", value := a.skill_match_score, color := "#8b5cf6" },
                { name := "Overall Match", value := a.composite_score, color := "#10b981" }]) := by
  have hrun : (runHandleAnalyze s net).analysis = d.analysis := by
    rw [runHandleAnalyze, handleAnalyze_of_valid s f net hf hj, hnet]
    simp [hs, applyEffect]
  refine ⟨hrun, ?_, ?_⟩
  · rw [runHandleAnalyze, handleAnalyze_of_valid s f net hf hj, hnet]
    simp [hs, applyEffect]
  · intro a ha
    rw [hrun, ha]
    rfl

/-- C6, at a sample input: scores outside 0..100, not integers, or not even
numbers reach the chart as they came. -/
theorem handleAnalyze_success_passthrough_witness :
    trim readyState.jobDescription ≠ "" ∧
      ScoreBreakdownChart
        (runHandleAnalyze readyState fun _ =>
          FetchOutcome.decoded (some ⟨.bool true, some oddScores, none⟩)).analysis =
        some [{ name := "Content Similarity", value := .num (-5), color := "#3b82f6" },
              { name := "Skill Match", value := .num (2507 / 10), color := "#8b5cf6" },
              { name := "Overall Match", value := .str "n/a", color := "#10b981" }] :=
  ⟨by decide,
    (handleAnalyze_success_passthrough readyState sampleFile _
      ⟨.bool true, some oddScores, none⟩ rfl (by decide) rfl rfl).2.2 oddScores rfl⟩

/-! ## Property lookup -/

/-- A key reported by `Object.keys` is an own key. -/
theorem lookup_ne_none_of_mem_objectKeys (o : SkillSet) (c : String)
    (h : c ∈ objectKeys o) : o.lookup c ≠ none := by
  induction o with
  | nil => simp [objectKeys] at h
  | cons kv rest ih =>
    obtain ⟨k, v⟩ := kv
    by_cases hk : c = k
    · subst hk
      simp [List.lookup]
    · have hne : (c == k) = false := by simpa using hk
      have hrest : c ∈ objectKeys rest := by
        simp only [objectKeys, List.map_cons, List.mem_cons] at h
        rcases h with h | h
        · exact absurd h hk
        · exact h
      simp only [List.lookup, hne]
      exact ih hrest

/-- A lookup that ends at the object gives the skills the object holds. -/
theorem lookupOrEmpty_of_readsOwn (o : SkillSet) (c : String) (h : readsOwn o c) :
    lookupOrEmpty o c = PropertyValue.array (skillsOrEmpty o c) := by
  unfold lookupOrEmpty skillsOrEmpty
  cases ho : o.lookup c with
  | some v => cases v <;> rfl
  | none =>
    rcases h with h | h
    · exact absurd ho h
    · simp [h]

/-- A numeral of a chart is the double of that value. -/
theorem JsNumber.ofNat_eq (n : Nat) : (OfNat.ofNat n : JsNumber) = JsNumber.finite n :=
  rfl

/-- The guard of the rate: no required skill gives 0, whatever the other
length is. -/
theorem rateOf_zero (matched : Option Nat) : rateOf matched (some 0) = 0 := by
  cases matched with
  | none => simp [rateOf]
  | some m => simp [rateOf, ratePercent, JsNumber.ofNat_eq]

/-! ## `SkillRadarChart` -/

/-- Among the first 128 characters, a key character is fixed by lower-casing,
also after an upper-casing, and is not the space. -/
theorem snakeChar_ascii : ∀ n < 128, isSnakeChar (Char.ofNat n) = true →
    (Char.ofNat n).toUpper.toLower = Char.ofNat n ∧
      (Char.ofNat n).toLower = Char.ofNat n ∧ Char.ofNat n ≠ ' ' := by
  decide

/-- A key character is one of the first 128 characters. -/
theorem snakeChar_lt (c : Char) (h : isSnakeChar c = true) : c.toNat < 128 := by
  simp only [isSnakeChar, Char.isLower, Char.isDigit, Bool.or_eq_true, Bool.and_eq_true,
    decide_eq_true_eq, beq_iff_eq] at h
  rcases h with (h | h) | h
  · have h2 : c.toNat ≤ 122 := h.2
    omega
  · have h2 : c.toNat ≤ 57 := h.2
    omega
  · subst h
    decide

/-- A key character is fixed by lower-casing, also after an upper-casing, and
is not the space. -/
theorem snakeChar_facts (c : Char) (h : isSnakeChar c = true) :
    c.toUpper.toLower = c ∧ c.toLower = c ∧ c ≠ ' ' := by
  have hc : Char.ofNat c.toNat = c := Char.ofNat_toNat c
  have key := snakeChar_ascii c.toNat (snakeChar_lt c h)
  rw [hc] at key
  exact key h

/-- Lower-casing undoes `capitalizeWords` on characters that lower-casing
fixes, also after an upper-casing. -/
theorem map_toLower_capitalizeWords (cs : List Char) :
    ∀ b : Bool, (∀ c ∈ cs, c.toUpper.toLower = c ∧ c.toLower = c) →
      (capitalizeWords b cs).map Char.toLower = cs := by
  induction cs with
  | nil => intro b _; rfl
  | cons c cs ih =>
    intro b h
    have hc := h c (List.mem_cons_self c cs)
    have htl := ih (isWordChar c) fun x hx => h x (List.mem_cons_of_mem c hx)
    simp only [capitalizeWords, List.map_cons, htl]
    split <;> simp [hc.1, hc.2]

/-- A character of `replaceFirst old new cs` is a character of `cs` or `new`. -/
theorem mem_replaceFirst (old new : Char) (cs : List Char) :
    ∀ c ∈ replaceFirst old new cs, c ∈ cs ∨ c = new := by
  induction cs with
  | nil => intro c hc; simp [replaceFirst] at hc
  | cons x xs ih =>
    intro c hc
    simp only [replaceFirst] at hc
    split at hc
    · rcases List.mem_cons.mp hc with h | h
      · exact Or.inr h
      · exact Or.inl (List.mem_cons_of_mem x h)
    · rcases List.mem_cons.mp hc with h | h
      · exact Or.inl (h ▸ List.mem_cons_self x xs)
      · rcases ih c h with h1 | h1
        · exact Or.inl (List.mem_cons_of_mem x h1)
        · exact Or.inr h1

/-- On a key without spaces, turning the first space into an underscore undoes
turning the first underscore into a space. -/
theorem replaceFirst_roundtrip (cs : List Char) (h : ∀ c ∈ cs, c ≠ ' ') :
    replaceFirst ' ' '_' (replaceFirst '_' ' ' cs) = cs := by
  induction cs with
  | nil => rfl
  | cons x xs ih =>
    have hx := h x (List.mem_cons_self x xs)
    have hxs := ih fun c hc => h c (List.mem_cons_of_mem x hc)
    by_cases hu : x = '_'
    · subst hu
      simp [replaceFirst]
    · simp [replaceFirst, hu, hx, hxs]

/-- The filter of `SkillRadarChart` maps the label of a taxonomy-style key back
to the key. -/
theorem label_roundtrip (category : String) (h : isSnakeKey category = true) :
    String.mk (replaceFirst ' ' '_' (toLowerCase (categoryLabel category)).data) = category := by
  have hall : ∀ c ∈ category.data, isSnakeChar c = true := by
    simpa [isSnakeKey, List.all_eq_true] using h
  have hfix : ∀ c ∈ replaceFirst '_' ' ' category.data,
      c.toUpper.toLower = c ∧ c.toLower = c := by
    intro c hc
    rcases mem_replaceFirst '_' ' ' category.data c hc with h1 | h1
    · exact ⟨(snakeChar_facts c (hall c h1)).1, (snakeChar_facts c (hall c h1)).2.1⟩
    · subst h1
      decide
  have hlow : (toLowerCase (categoryLabel category)).data = replaceFirst '_' ' ' category.data := by
    simp only [toLowerCase, categoryLabel]
    exact map_toLower_capitalizeWords _ false hfix
  rw [hlow, replaceFirst_roundtrip category.data fun c hc => (snakeChar_facts c (hall c hc)).2.2]

/-- C8, refuted as stated: for the analysis whose only key `soft_skills` has an
empty list, `radarData` holds an entry for that key, with score 0. -/
theorem radarData_keeps_zero_requirement :
    "soft_skills" ∈ objectKeys zeroRequirement.job_skills ∧
      skillsOrEmpty zeroRequirement.job_skills "soft_skills" = [] ∧
      radarData zeroRequirement = [{ category := "Soft Skills", score := 0, fullMark := 100 }] := by
  decide

/-- C8, amended: `SkillRadarChart` does not drop zero-requirement categories.
For a key `c` of `job_skills` made of lower-case ASCII letters, digits and
underscores whose list is empty, the entry of `c` has score 0 and passes the
filter of the chart, and `radarData` contains it when `job_skills` has at most
six keys. -/
theorem radarData_zero_requirement (a : Analysis) (c : String)
    (hc : c ∈ objectKeys a.job_skills) (hempty : skillsOrEmpty a.job_skills c = [])
    (hkey : isSnakeKey c = true) :
    radarItem a c = { category := categoryLabel c, score := 0, fullMark := 100 } ∧
      radarKeep a (radarItem a c) = true ∧
      ((objectKeys a.job_skills).length ≤ 6 → radarItem a c ∈ radarData a) := by
  have hkeep : radarKeep a (radarItem a c) = true := by
    simp only [radarKeep, radarItem, label_roundtrip c hkey, Bool.or_eq_true]
    exact Or.inr (by simpa using hc)
  refine ⟨?_, hkeep, ?_⟩
  · have hjob : lookupOrEmpty a.job_skills c = PropertyValue.array [] := by
      rw [lookupOrEmpty_of_readsOwn _ _ (Or.inl (lookup_ne_none_of_mem_objectKeys _ _ hc)),
        hempty]
    simp only [radarItem, hjob, PropertyValue.length, List.length_nil, rateOf_zero]
  · intro hlen
    unfold radarData
    rw [List.take_of_length_le]
    · exact List.mem_filter.mpr ⟨List.mem_map_of_mem _ hc, hkeep⟩
    · calc (((objectKeys a.job_skills).map (radarItem a)).filter (radarKeep a)).length
          ≤ ((objectKeys a.job_skills).map (radarItem a)).length := List.length_filter_le _ _
        _ = (objectKeys a.job_skills).length := List.length_map _ _
        _ ≤ 6 := hlen

/-- C8, at a sample input: the key `soft_skills` with an empty list. -/
theorem radarData_zero_requirement_witness :
    skillsOrEmpty zeroRequirement.job_skills "soft_skills" = [] ∧
      radarItem zeroRequirement "soft_skills" ∈ radarData zeroRequirement :=
  ⟨by decide,
    (radarData_zero_requirement zeroRequirement "soft_skills" (by decide) (by decide)
      (by decide)).2.2 (by decide)⟩

/-! ## `RecommendationPriorityChart` -/

/-- The length of a filtered list, one element at a time. -/
theorem length_filter_cons (p : String → Bool) (r : String) (rs : List String) :
    ((r :: rs).filter p).length = (if p r then 1 else 0) + (rs.filter p).length := by
  by_cases h : p r = true
  · simp [List.filter_cons, h]
    omega
  · simp [List.filter_cons, h]

/-- The three counts add up to the number of bucket memberships: a string is
counted once for each bucket whose marker it contains. -/
theorem counts_sum_eq_bucketsOf (recs : List String) :
    (recs.filter isHigh).length + (recs.filter isMedium).length + (recs.filter isLow).length =
      (recs.map bucketsOf).sum := by
  induction recs with
  | nil => rfl
  | cons r rs ih =>
    rw [length_filter_cons, length_filter_cons, length_filter_cons, List.map_cons,
      List.sum_cons, ← ih, bucketsOf]
    omega

/-- Dropping the buckets with count 0 does not change the sum of the counts. -/
theorem sum_priorityData (recs : List String) :
    ((priorityData recs).map fun item => item.count).sum =
      (recs.filter isHigh).length + (recs.filter isMedium).length +
        (recs.filter isLow).length := by
  unfold priorityData priorityBuckets
  by_cases h1 : (recs.filter isHigh).length = 0 <;>
    by_cases h2 : (recs.filter isMedium).length = 0 <;>
    by_cases h3 : (recs.filter isLow).length = 0 <;>
    (simp [List.filter_cons, h1, h2, h3, Nat.pos_iff_ne_zero]; try omega)

/-- C9, refuted as stated: a recommendation without any marker is counted in
no bucket, and one with the markers of two buckets is counted twice, so the
three counts do not add up to the length of the list. -/
theorem priority_counts_not_partition :
    (priorityBuckets ["Tailor your resume to the role"]).map (fun item => item.count)
        = [0, 0, 0] ∧
      ["Tailor your resume to the role"].length = 1 ∧
      (priorityBuckets ["Consider adding Java; Include a project"]).map
        (fun item => item.count) = [1, 1, 0] ∧
      ["Consider adding Java; Include a project"].length = 1 := by
  decide

/-- C9, amended: for a recommendations list in which every string carries the
markers of exactly one bucket, the three counts of
`RecommendationPriorityChart` add up to the length of the list, and so do the
counts that remain in `priorityData`. -/
theorem priority_counts_sum (recs : List String) (h : ∀ r ∈ recs, bucketsOf r = 1) :
    (recs.filter isHigh).length + (recs.filter isMedium).length + (recs.filter isLow).length =
        recs.length ∧
      ((priorityData recs).map fun item => item.count).sum = recs.length := by
  have hsum : (recs.map bucketsOf).sum = recs.length := by
    induction recs with
    | nil => rfl
    | cons r rs ih =>
      rw [List.map_cons, List.sum_cons, h r (List.mem_cons_self r rs),
        ih fun x hx => h x (List.mem_cons_of_mem r hx), List.length_cons]
      omega
  constructor
  · rw [counts_sum_eq_bucketsOf, hsum]
  · rw [sum_priorityData, counts_sum_eq_bucketsOf, hsum]

/-- C9, at a sample input: one recommendation per bucket. -/
theorem priority_counts_sum_witness :
    (∀ r ∈ ["Consider adding Java", "Highlight your SQL work", "Good coverage"],
        bucketsOf r = 1) ∧
      ((priorityData ["Consider adding Java", "Highlight your SQL work", "Good coverage"]).map
        fun item => item.count).sum = 3 :=
  ⟨by decide,
    (priority_counts_sum ["Consider adding Java", "Highlight your SQL work", "Good coverage"]
      (by decide)).2⟩

/-- The test `s.includes(needle)` holds exactly when `needle` occurs in `s` as
a contiguous run: `s` is some text, then `needle`, then some text. -/
theorem includes_iff (s needle : String) :
    includes s needle = true ↔ ∃ pre post : List Char, s.data = pre ++ needle.data ++ post := by
  simp only [includes, List.any_eq_true, List.mem_tails, List.isPrefixOf_iff_prefix]
  constructor
  · rintro ⟨t, ⟨pre, hpre⟩, ⟨post, hpost⟩⟩
    exact ⟨pre, post, by rw [← hpre, ← hpost, List.append_assoc]⟩
  · rintro ⟨pre, post, h⟩
    exact ⟨needle.data ++ post, ⟨pre, by rw [h, List.append_assoc]⟩, ⟨post, rfl⟩⟩

/-- C10: `priorityData` is the list of the buckets High, Medium, Low, in that
order, without those whose count is 0.  High counts the strings that contain
`Consider adding` or `Focus on`, Medium those that contain `Include` or
`Highlight`, Low those that contain `Good` or `Excellent`, where "contain" is
the occurrence as a contiguous run of characters, letter case included.  No
entry of `priorityData` has count 0, and without a `recommendations` field the
component renders nothing. -/
theorem priorityData_spec :
    (∀ s needle : String,
      includes s needle = true ↔
        ∃ pre post : List Char, s.data = pre ++ needle.data ++ post) ∧
    (∀ recs : List String,
      priorityData recs =
        ([ { priority := "High Priority"
             count := (recs.filter fun r =>
               includes r "Consider adding" || includes r "Focus on").length
             color := "#ef4444" },
           { priority := "Medium Priority"
             count := (recs.filter fun r =>
               includes r "Include" || includes r "Highlight").length
             color := "#f59e0b" },
           { priority := "Low Priority"
             count := (recs.filter fun r =>
               includes r "Good" || includes r "Excellent").length
             color := "#10b981" } ] : List PriorityDatum).filter
          fun item => decide (item.count ≠ 0)) ∧
    (∀ (recs : List String) (item : PriorityDatum),
      item ∈ priorityData recs → item.count ≠ 0) ∧
    (∀ a : Analysis, a.recommendations = none →
      RecommendationPriorityChart (some a) = none) ∧
    (∀ (a : Analysis) (recs : List String), a.recommendations = some recs →
      RecommendationPriorityChart (some a) = some (priorityData recs)) ∧
    includes "good match" "Good" = false := by
  refine ⟨includes_iff, ?_, ?_, ?_, ?_, by decide⟩
  · intro recs
    unfold priorityData priorityBuckets
    apply List.filter_congr
    intro item _
    simp [Nat.pos_iff_ne_zero]
  · intro recs item hitem
    have h := (List.mem_filter.mp hitem).2
    simp only [decide_eq_true_eq] at h
    omega
  · intro a ha
    simp [RecommendationPriorityChart, ha]
  · intro a recs ha
    simp [RecommendationPriorityChart, ha]

/-! ## Rounding to a double -/

/-- Rounding to the nearest integer moves a number by at most one half. -/
theorem abs_roundHalfEven_sub_le (x : Rat) : |(roundHalfEven x : Rat) - x| ≤ 1 / 2 := by
  have h1 := Int.floor_le x
  have h2 := Int.lt_floor_add_one x
  unfold roundHalfEven
  simp only
  split_ifs <;> (push_cast; rw [abs_le]; constructor <;> linarith)

/-- Rounding does not cross an integer above. -/
theorem roundHalfEven_le (x : Rat) (N : Int) (h : x ≤ N) : roundHalfEven x ≤ N := by
  have h1 := Int.floor_le x
  have hf : ⌊x⌋ ≤ N := by exact_mod_cast h1.trans h
  unfold roundHalfEven
  simp only
  split_ifs with ha hb hc
  · exact hf
  · have hlt : (⌊x⌋ : Rat) < N := by linarith
    have hlt2 : ⌊x⌋ < N := by exact_mod_cast hlt
    omega
  · exact hf
  · have hlt : (⌊x⌋ : Rat) < N := by linarith
    have hlt2 : ⌊x⌋ < N := by exact_mod_cast hlt
    omega

/-- Rounding keeps a number that is not negative so. -/
theorem roundHalfEven_nonneg (x : Rat) (h : 0 ≤ x) : 0 ≤ roundHalfEven x := by
  have hf : 0 ≤ ⌊x⌋ := Int.floor_nonneg.mpr h
  unfold roundHalfEven
  simp only
  split_ifs <;> omega

/-- An integer closer than one half is the result of the rounding. -/
theorem roundHalfEven_eq (x : Rat) (z : Int) (h : |x - z| < 1 / 2) : roundHalfEven x = z := by
  rw [abs_lt] at h
  unfold roundHalfEven
  simp only
  by_cases hz : (z : Rat) ≤ x
  · have hf : ⌊x⌋ = z := Int.floor_eq_iff.mpr ⟨hz, by linarith⟩
    rw [hf]
    have h0 : x - (z : Rat) < 1 / 2 := by linarith
    rw [if_pos h0]
  · have hf : ⌊x⌋ = z - 1 :=
      Int.floor_eq_iff.mpr ⟨by push_cast; linarith, by push_cast; linarith⟩
    rw [hf]
    have h1 : ¬ (x - ((z - 1 : Int) : Rat) < 1 / 2) := by push_cast; linarith
    have h2 : 1 / 2 < x - ((z - 1 : Int) : Rat) := by push_cast; linarith
    rw [if_neg h1, if_pos h2]
    omega

/-- The double of a positive number, with its binade written out. -/
theorem toDouble_of_pos (q : Rat) (h : 0 < q) :
    toDouble q =
      (roundHalfEven (q / 2 ^ (Int.log 2 q - 52)) : Rat) * 2 ^ (Int.log 2 q - 52) := by
  unfold toDouble
  rw [if_neg (ne_of_gt h), abs_of_pos h]

/-- The double of a number that is not negative is not negative. -/
theorem toDouble_nonneg (q : Rat) (h : 0 ≤ q) : 0 ≤ toDouble q := by
  rcases eq_or_lt_of_le h with h0 | hpos
  · rw [← h0]
    simp [toDouble]
  · rw [toDouble_of_pos q hpos]
    have hulp : (0 : Rat) < 2 ^ (Int.log 2 q - 52) := zpow_pos (by norm_num) _
    have hr := roundHalfEven_nonneg (q / 2 ^ (Int.log 2 q - 52)) (div_nonneg h hulp.le)
    have hr2 : (0 : Rat) ≤ (roundHalfEven (q / 2 ^ (Int.log 2 q - 52)) : Rat) := by
      exact_mod_cast hr
    positivity

/-- The relative error of one rounding is at most `2 ^ (-53)`. -/
theorem abs_toDouble_sub_le (q : Rat) (h : 0 < q) : |toDouble q - q| ≤ q / 2 ^ 53 := by
  rw [toDouble_of_pos q h]
  set e := Int.log 2 q with he
  have hulp : (0 : Rat) < 2 ^ (e - 52) := zpow_pos (by norm_num) _
  have hle : ((2 : Nat) : Rat) ^ e ≤ q := Int.zpow_log_le_self (by norm_num) h
  have hsplit : (2 : Rat) ^ (e - 52) = 2 ^ e / 2 ^ 52 := by
    rw [zpow_sub₀ (by norm_num)]
    norm_num
  have herr := abs_roundHalfEven_sub_le (q / 2 ^ (e - 52))
  have hrw : (roundHalfEven (q / 2 ^ (e - 52)) : Rat) * 2 ^ (e - 52) - q =
      ((roundHalfEven (q / 2 ^ (e - 52)) : Rat) - q / 2 ^ (e - 52)) * 2 ^ (e - 52) := by
    field_simp
  rw [hrw, abs_mul, abs_of_pos hulp]
  calc |(roundHalfEven (q / 2 ^ (e - 52)) : Rat) - q / 2 ^ (e - 52)| * 2 ^ (e - 52)
      ≤ 1 / 2 * 2 ^ (e - 52) := mul_le_mul_of_nonneg_right herr hulp.le
    _ = 2 ^ e / 2 ^ 53 := by rw [hsplit]; ring
    _ ≤ q / 2 ^ 53 := by
        apply div_le_div_of_nonneg_right _ (by positivity)
        exact_mod_cast hle

/-- Rounding to a double does not cross a natural number below `2 ^ 53`. -/
theorem toDouble_le_natCast (q : Rat) (B : Nat) (h0 : 0 ≤ q) (hB : q ≤ B)
    (hlt : B < 2 ^ 53) : toDouble q ≤ B := by
  rcases eq_or_lt_of_le h0 with hz | hpos
  · rw [← hz]
    simp [toDouble]
  · rw [toDouble_of_pos q hpos]
    set e := Int.log 2 q with he
    have hulp : (0 : Rat) < 2 ^ (e - 52) := zpow_pos (by norm_num) _
    have hle : ((2 : Nat) : Rat) ^ e ≤ q := Int.zpow_log_le_self (by norm_num) hpos
    have hBq : (B : Rat) < 2 ^ (53 : Int) := by
      have h1 : ((B : Nat) : Rat) < ((2 ^ 53 : Nat) : Rat) := Nat.cast_lt.mpr hlt
      have h2 : (2 : Rat) ^ (53 : Int) = ((2 ^ 53 : Nat) : Rat) := by norm_num
      rw [h2]
      exact h1
    have he52 : e < 53 := by
      have hpow : (2 : Rat) ^ e < 2 ^ (53 : Int) := by
        have h2 : (2 : Rat) ^ e ≤ q := by exact_mod_cast hle
        linarith
      exact (zpow_lt_zpow_iff_right₀ (by norm_num : (1 : Rat) < 2)).mp hpow
    obtain ⟨k, hk⟩ : ∃ k : Nat, (52 - e) = k := ⟨(52 - e).toNat, by omega⟩
    have hinv : (2 : Rat) ^ (e - 52) * 2 ^ k = 1 := by
      rw [← zpow_natCast, ← hk, ← zpow_add₀ (by norm_num)]
      simp
    have hN : q / 2 ^ (e - 52) ≤ ((B * 2 ^ k : Int) : Rat) := by
      rw [div_le_iff₀ hulp]
      push_cast
      calc q ≤ B := hB
        _ = B * (2 ^ k * 2 ^ (e - 52)) := by rw [mul_comm ((2 : Rat) ^ k), hinv, mul_one]
        _ = B * 2 ^ k * 2 ^ (e - 52) := by ring
    have hr := roundHalfEven_le _ _ hN
    have hr2 : (roundHalfEven (q / 2 ^ (e - 52)) : Rat) ≤ ((B * 2 ^ k : Int) : Rat) := by
      exact_mod_cast hr
    calc (roundHalfEven (q / 2 ^ (e - 52)) : Rat) * 2 ^ (e - 52)
        ≤ ((B * 2 ^ k : Int) : Rat) * 2 ^ (e - 52) := mul_le_mul_of_nonneg_right hr2 hulp.le
      _ = B * (2 ^ (e - 52) * 2 ^ k) := by push_cast; ring
      _ = B := by rw [hinv, mul_one]

/-- The double of a positive number from a certificate: its binade `e` and a
mantissa `z` closer than half a unit in the last place. -/
theorem toDouble_eq (q : Rat) (e z : Int) (hpos : 0 < q) (h1 : (2 : Rat) ^ e ≤ q)
    (h2 : q < (2 : Rat) ^ (e + 1)) (h3 : |q / 2 ^ (e - 52) - z| < 1 / 2) :
    toDouble q = z * 2 ^ (e - 52) := by
  have hlog : Int.log 2 q = e := by
    have ha : e ≤ Int.log 2 q :=
      (Int.zpow_le_iff_le_log (by norm_num) hpos).mp (by exact_mod_cast h1)
    have hb : Int.log 2 q < e + 1 :=
      (Int.lt_zpow_iff_log_lt (by norm_num) hpos).mp (by exact_mod_cast h2)
    omega
  rw [toDouble_of_pos q hpos, hlog, roundHalfEven_eq _ z h3]

/-- The quotient `11 / 20` as a double. -/
theorem toDouble_eleven_twentieths : toDouble (11 / 20) = 4953959590107546 / 2 ^ 53 := by
  have h := toDouble_eq (11 / 20) (-1) 4953959590107546 (by norm_num) (by norm_num)
    (by norm_num) (by rw [abs_lt]; constructor <;> norm_num)
  rw [h]
  norm_num

/-- The rate of 11 skills out of 20 is `55.00000000000001`, one unit in the
last place above 55. -/
theorem ratePercent_eleven_twenty : ratePercent 11 20 = 55 + 1 / 2 ^ 47 := by
  have hx : ((11 : Nat) : Rat) / ((20 : Nat) : Rat) = 11 / 20 := by norm_num
  have h := toDouble_eq (4953959590107546 / 2 ^ 53 * 100) 5 7740561859543041 (by norm_num)
    (by norm_num) (by norm_num) (by rw [abs_lt]; constructor <;> norm_num)
  rw [ratePercent, if_pos (by norm_num), hx, toDouble_eleven_twentieths, h]
  norm_num

/-- The rate of 1 skill out of 1 is 100. -/
theorem ratePercent_one_one : ratePercent 1 1 = 100 := by
  have hx : ((1 : Nat) : Rat) / ((1 : Nat) : Rat) = 1 := by norm_num
  have h1 := toDouble_eq 1 0 4503599627370496 (by norm_num) (by norm_num) (by norm_num)
    (by rw [abs_lt]; constructor <;> norm_num)
  have h1v : toDouble 1 = 1 := by
    rw [h1]
    norm_num
  have h2 := toDouble_eq (1 * 100) 6 7036874417766400 (by norm_num) (by norm_num)
    (by norm_num) (by rw [abs_lt]; constructor <;> norm_num)
  rw [ratePercent, if_pos (by norm_num), hx, h1v, h2]
  norm_num

/-- The rate lies between 0 and 100 when the matched skills are not more than
the required ones. -/
theorem ratePercent_bounds (m j : Nat) (h : m ≤ j) :
    0 ≤ ratePercent m j ∧ ratePercent m j ≤ 100 := by
  unfold ratePercent
  split_ifs with hj
  · have hjq : (0 : Rat) < j := by exact_mod_cast hj
    have hq0 : (0 : Rat) ≤ (m : Rat) / j := by positivity
    have hq1 : (m : Rat) / j ≤ ((1 : Nat) : Rat) := by
      rw [div_le_iff₀ hjq]
      simpa using (Nat.cast_le.mpr h : (m : Rat) ≤ j)
    have hx0 := toDouble_nonneg _ hq0
    have hx1 := toDouble_le_natCast _ 1 hq0 hq1 (by norm_num)
    have hy0 : (0 : Rat) ≤ toDouble ((m : Rat) / j) * 100 := by positivity
    have hy1 : toDouble ((m : Rat) / j) * 100 ≤ ((100 : Nat) : Rat) := by
      push_cast at hx1 ⊢
      linarith
    exact ⟨toDouble_nonneg _ hy0,
      by simpa using toDouble_le_natCast _ 100 hy0 hy1 (by norm_num)⟩
  · exact ⟨le_refl _, by norm_num⟩

/-- The rate is the rational `100 * m / j` up to the two roundings: a relative
error of at most `2 ^ (-51)`. -/
theorem ratePercent_error (m j : Nat) (hj : 0 < j) :
    |ratePercent m j - 100 * (m : Rat) / j| ≤ (100 * (m : Rat) / j) / 2 ^ 51 := by
  rw [ratePercent, if_pos hj]
  have hjq : (0 : Rat) < j := by exact_mod_cast hj
  rcases Nat.eq_zero_or_pos m with hm | hm
  · subst hm
    simp [toDouble]
  · have hmq : (0 : Rat) < m := by exact_mod_cast hm
    have hq : (0 : Rat) < (m : Rat) / j := by positivity
    set q : Rat := (m : Rat) / j with hqdef
    have h1 := abs_toDouble_sub_le q hq
    rw [abs_le] at h1
    have hxpos : 0 < toDouble q := by
      have hsmall : q / 2 ^ 53 < q := by
        rw [div_lt_iff₀ (by positivity)]
        nlinarith
      linarith [h1.1]
    have hy : 0 < toDouble q * 100 := by positivity
    have h2 := abs_toDouble_sub_le (toDouble q * 100) hy
    rw [abs_le] at h2
    have hgoal : (100 * (m : Rat) / j) = 100 * q := by rw [hqdef]; ring
    have hup : (toDouble q * 100) / 2 ^ 53 ≤ (q + q / 2 ^ 53) * 100 / 2 ^ 53 := by
      apply div_le_div_of_nonneg_right _ (by positivity)
      linarith [h1.2]
    rw [hgoal, abs_le]
    constructor
    · norm_num at h1 h2 hup ⊢
      linarith [h1.1, h1.2, h2.1, h2.2]
    · norm_num at h1 h2 hup ⊢
      linarith [h1.1, h1.2, h2.1, h2.2]

/-! ## The first six categories of `SkillRadarChart` -/

/-- The table `radarData` in terms of the categories: the first six keys of
`job_skills` whose entry passes the filter, each turned into its entry. -/
theorem radarData_eq_take_map (a : Analysis) :
    radarData a =
      (((objectKeys a.job_skills).filter fun c => radarKeep a (radarItem a c)).take 6).map
        (radarItem a) := by
  unfold radarData
  rw [List.filter_map, List.map_take]
  rfl

/-- C11: `radarData` has at most six entries: they are the entries of the
first six keys of `job_skills`, in key order, whose entry passes the filter of
the chart, and there is no entry at a position from the seventh on.  In the
sample of seven categories the seventh has score 100 and passes the filter,
and the chart shows the six before it, each with score 0. -/
theorem radarData_first_six :
    (∀ a : Analysis, (radarData a).length ≤ 6) ∧
    (∀ a : Analysis,
      radarData a =
        (((objectKeys a.job_skills).filter fun c => radarKeep a (radarItem a c)).take 6).map
          (radarItem a)) ∧
    (∀ (a : Analysis) (i : Nat), 6 ≤ i → (radarData a)[i]? = none) ∧
    (radarItem sevenCategories "languages").score = 100 ∧
    radarKeep sevenCategories (radarItem sevenCategories "languages") = true ∧
    radarData sevenCategories =
      [{ category := "Programming Languages", score := 0, fullMark := 100 },
       { category := "Frameworks", score := 0, fullMark := 100 },
       { category := "Databases", score := 0, fullMark := 100 },
       { category := "Cloud", score := 0, fullMark := 100 },
       { category := "Tools", score := 0, fullMark := 100 },
       { category := "Soft Skills", score := 0, fullMark := 100 }] := by
  have hlen : ∀ a : Analysis, (radarData a).length ≤ 6 := by
    intro a
    unfold radarData
    rw [List.length_take]
    exact Nat.min_le_left _ _
  refine ⟨hlen, radarData_eq_take_map, ?_, ?_, ?_, by decide⟩
  · intro a i hi
    exact List.getElem?_eq_none (Nat.le_trans (hlen a) hi)
  · have hm : (lookupOrEmpty sevenCategories.matching_skills "languages").length = some 1 := by
      decide
    have hj : (lookupOrEmpty sevenCategories.job_skills "languages").length = some 1 := by
      decide
    have hdef : (radarItem sevenCategories "languages").score =
        rateOf (lookupOrEmpty sevenCategories.matching_skills "languages").length
          (lookupOrEmpty sevenCategories.job_skills "languages").length := rfl
    rw [hdef, hm, hj, JsNumber.ofNat_eq]
    show JsNumber.finite (ratePercent 1 1) = _
    rw [ratePercent_one_one]
    norm_num
  · simp only [radarKeep, Bool.or_eq_true]
    right
    decide

/-! ## `SkillCategoryChart` -/

/-- The entry of a category whose lookups end at the objects: the three
counts are the lengths of the three lists, and the rate is a double. -/
theorem categoryItem_of_readsOwn (a : Analysis) (c : String)
    (hjob : readsOwn a.job_skills c) (hmat : readsOwn a.matching_skills c)
    (hmis : readsOwn a.missing_skills c) :
    categoryItem a c =
      { category := categoryLabel c
        required := some (skillsOrEmpty a.job_skills c).length
        matched := some (skillsOrEmpty a.matching_skills c).length
        missing := some (skillsOrEmpty a.missing_skills c).length
        matchRate := JsNumber.finite
          (ratePercent (skillsOrEmpty a.matching_skills c).length
            (skillsOrEmpty a.job_skills c).length) } := by
  simp only [categoryItem, lookupOrEmpty_of_readsOwn _ _ hjob,
    lookupOrEmpty_of_readsOwn _ _ hmat, lookupOrEmpty_of_readsOwn _ _ hmis,
    PropertyValue.length, rateOf]

/-- The table `categoryData` when no lookup in `matching_skills` or
`missing_skills` reaches `Object.prototype`: one entry for each key of
`job_skills` whose list is not empty, in key order, holding the lengths of
the three lists, a key that is absent counting as 0. -/
theorem categoryData_of_readsOwn (a : Analysis)
    (h : ∀ c ∈ objectKeys a.job_skills,
      readsOwn a.matching_skills c ∧ readsOwn a.missing_skills c) :
    categoryData a =
      ((objectKeys a.job_skills).filter fun c =>
          decide (0 < (skillsOrEmpty a.job_skills c).length)).map fun c =>
        { category := categoryLabel c
          required := some (skillsOrEmpty a.job_skills c).length
          matched := some (skillsOrEmpty a.matching_skills c).length
          missing := some (skillsOrEmpty a.missing_skills c).length
          matchRate := JsNumber.finite
            (ratePercent (skillsOrEmpty a.matching_skills c).length
              (skillsOrEmpty a.job_skills c).length) } := by
  have hitem : ∀ c ∈ objectKeys a.job_skills, categoryItem a c = _ := fun c hc =>
    categoryItem_of_readsOwn a c (Or.inl (lookup_ne_none_of_mem_objectKeys _ _ hc))
      (h c hc).1 (h c hc).2
  unfold categoryData
  rw [List.filter_map]
  have hfilter : (objectKeys a.job_skills).filter
        ((fun item : CategoryDatum => lengthPositive item.required) ∘ categoryItem a) =
      (objectKeys a.job_skills).filter fun c =>
        decide (0 < (skillsOrEmpty a.job_skills c).length) := by
    apply List.filter_congr
    intro c hc
    simp [Function.comp, hitem c hc, lengthPositive]
  rw [hfilter]
  apply List.map_congr_left
  intro c hc
  exact hitem c (List.mem_filter.mp hc).1

/-- The end-to-end scenario of the specification: the entries are
(Programming Languages: 3, 2, 1) and (Soft Skills: 1, 0, 1). -/
theorem categoryData_scenario :
    (categoryData scenarioAnalysis).map
        (fun d => (d.category, d.required, d.matched, d.missing)) =
      [("Programming Languages", some 3, some 2, some 1),
       ("Soft Skills", some 1, some 0, some 1)] := by
  decide

/-- C7, at the failing input: the category `constructor` is absent from
`matching_skills`, yet its entry has `matched` 1 and `matchRate` 100, because
the lookup finds the function `Object` on the prototype, whose `length` is 1. -/
theorem categoryData_inherited_key :
    constructorCategory.matching_skills.lookup "constructor" = none ∧
      (categoryData constructorCategory).map
          (fun d => (d.category, d.required, d.matched, d.missing)) =
        [("Constructor", some 1, some 1, some 1)] ∧
      (categoryItem constructorCategory "constructor").matchRate = 100 := by
  refine ⟨by decide, by decide, ?_⟩
  have hm : (lookupOrEmpty constructorCategory.matching_skills "constructor").length =
      some 1 := by decide
  have hj : (lookupOrEmpty constructorCategory.job_skills "constructor").length =
      some 1 := by decide
  have hdef : (categoryItem constructorCategory "constructor").matchRate =
      rateOf (lookupOrEmpty constructorCategory.matching_skills "constructor").length
        (lookupOrEmpty constructorCategory.job_skills "constructor").length := rfl
  rw [hdef, hm, hj, JsNumber.ofNat_eq]
  show JsNumber.finite (ratePercent 1 1) = _
  rw [ratePercent_one_one]
  norm_num

/-! ## The data-model invariant in `SkillCategoryChart` -/

/-- A list splits into the elements a test accepts and those it rejects. -/
theorem length_filter_add (job : List String) (p : String → Bool) :
    job.length = (job.filter p).length + (job.filter fun x => !p x).length := by
  induction job with
  | nil => rfl
  | cons x xs ih =>
    by_cases h : p x = true
    · simp [List.filter_cons, h]
      omega
    · simp [List.filter_cons, h]
      omega

/-- The required skills are as many as the matching ones plus those left when
the matching ones are removed. -/
theorem length_required_split (job matching : List String) (hj : job.Nodup)
    (hm : matching.Nodup) (hsub : matching ⊆ job) :
    job.length =
      matching.length + (job.filter fun x => decide (x ∉ matching)).length := by
  have hperm : (job.filter fun x => decide (x ∈ matching)).Perm matching := by
    apply (List.perm_ext_iff_of_nodup (hj.filter _) hm).mpr
    intro x
    simp only [List.mem_filter, decide_eq_true_eq]
    exact ⟨fun h => h.2, fun h => ⟨hsub h, h⟩⟩
  have hsplit := length_filter_add job fun x => decide (x ∈ matching)
  rw [hperm.length_eq] at hsplit
  have hfun : (fun x => !decide (x ∈ matching)) = fun x => decide (x ∉ matching) := by
    funext x
    simp
  rw [hfun] at hsplit
  exact hsplit

/-- Under the invariant of the data model, when no lookup in `matching_skills`
or `missing_skills` reaches `Object.prototype`, every entry of `categoryData`
has three counts that are numbers with `required = matched + missing`. -/
theorem categoryData_required_eq_of_readsOwn (a : Analysis) (h : dataModelInvariant a)
    (hown : ∀ c ∈ objectKeys a.job_skills,
      readsOwn a.matching_skills c ∧ readsOwn a.missing_skills c) :
    ∀ item ∈ categoryData a,
      ∃ r m x : Nat, item.required = some r ∧ item.matched = some m ∧
        item.missing = some x ∧ r = m + x := by
  intro item hitem
  have hmap : item ∈ (objectKeys a.job_skills).map (categoryItem a) :=
    (List.mem_filter.mp hitem).1
  obtain ⟨c, hc, rfl⟩ := List.mem_map.mp hmap
  obtain ⟨hj, hm, _, hsub, hmiss⟩ := h c hc
  rw [categoryItem_of_readsOwn a c (Or.inl (lookup_ne_none_of_mem_objectKeys _ _ hc))
    (hown c hc).1 (hown c hc).2]
  refine ⟨_, _, _, rfl, rfl, rfl, ?_⟩
  rw [hmiss]
  exact length_required_split _ _ hj hm hsub

/-- C12, at the failing input: the analysis with the single category
`constructor` satisfies the invariant of the data model (one required skill,
none matching, the same skill missing), and its entry has required 1,
matched 1 and missing 1, so `required = matched + missing` fails. -/
theorem categoryData_invariant_inherited :
    dataModelInvariant constructorCategory ∧
      (categoryData constructorCategory).map (fun d => (d.required, d.matched, d.missing)) =
        [(some 1, some 1, some 1)] :=
  ⟨by unfold dataModelInvariant; decide, by decide⟩

/-! ## The rate of a category -/

/-- C13, refuted as stated: with 11 of 20 required skills matched, both charts
compute `55.00000000000001` (55 plus `2 ^ (-47)`), not the rational
`100 * 11 / 20 = 55`. -/
theorem rate_not_exact :
    (skillsOrEmpty elevenOfTwenty.matching_skills "skills").length = 11 ∧
      (skillsOrEmpty elevenOfTwenty.job_skills "skills").length = 20 ∧
      (categoryItem elevenOfTwenty "skills").matchRate = JsNumber.finite (55 + 1 / 2 ^ 47) ∧
      (radarItem elevenOfTwenty "skills").score = JsNumber.finite (55 + 1 / 2 ^ 47) ∧
      (categoryItem elevenOfTwenty "skills").matchRate ≠
        JsNumber.finite (100 * (11 : Rat) / 20) := by
  have hm : (lookupOrEmpty elevenOfTwenty.matching_skills "skills").length = some 11 := by
    decide
  have hj : (lookupOrEmpty elevenOfTwenty.job_skills "skills").length = some 20 := by
    decide
  have hrate : (categoryItem elevenOfTwenty "skills").matchRate =
      JsNumber.finite (55 + 1 / 2 ^ 47) := by
    have hdef : (categoryItem elevenOfTwenty "skills").matchRate =
        rateOf (lookupOrEmpty elevenOfTwenty.matching_skills "skills").length
          (lookupOrEmpty elevenOfTwenty.job_skills "skills").length := rfl
    rw [hdef, hm, hj]
    show JsNumber.finite (ratePercent 11 20) = _
    rw [ratePercent_eleven_twenty]
  have hscore : (radarItem elevenOfTwenty "skills").score =
      JsNumber.finite (55 + 1 / 2 ^ 47) := by
    have hdef : (radarItem elevenOfTwenty "skills").score =
        rateOf (lookupOrEmpty elevenOfTwenty.matching_skills "skills").length
          (lookupOrEmpty elevenOfTwenty.job_skills "skills").length := rfl
    rw [hdef, hm, hj]
    show JsNumber.finite (ratePercent 11 20) = _
    rw [ratePercent_eleven_twenty]
  refine ⟨by decide, by decide, hrate, hscore, ?_⟩
  rw [hrate]
  intro heq
  have hq : (55 + 1 / 2 ^ 47 : Rat) = 100 * (11 : Rat) / 20 := JsNumber.finite.inj heq
  norm_num at hq

/-- C13, amended: for a category of `job_skills` whose lookup in
`matching_skills` does not reach `Object.prototype`, `matchRate` of
`SkillCategoryChart` and `score` of `SkillRadarChart` are the same double.  It
is 0 when the `job_skills` list is empty (the division is guarded); otherwise
it is the double computed by `(matching / required) * 100`, which differs from
the rational `100 * matching / required` by a relative error of at most
`2 ^ (-51)`; and when the matching skills are not more than the required ones
it lies between 0 and 100. -/
theorem rate_spec (a : Analysis) (c : String) (hc : c ∈ objectKeys a.job_skills)
    (hown : readsOwn a.matching_skills c) :
    (categoryItem a c).matchRate = (radarItem a c).score ∧
    (categoryItem a c).matchRate =
      JsNumber.finite (ratePercent (skillsOrEmpty a.matching_skills c).length
        (skillsOrEmpty a.job_skills c).length) ∧
    ((skillsOrEmpty a.job_skills c).length = 0 →
      ratePercent (skillsOrEmpty a.matching_skills c).length
        (skillsOrEmpty a.job_skills c).length = 0) ∧
    (0 < (skillsOrEmpty a.job_skills c).length →
      ratePercent (skillsOrEmpty a.matching_skills c).length
          (skillsOrEmpty a.job_skills c).length =
          toDouble (toDouble (((skillsOrEmpty a.matching_skills c).length : Rat) /
            ((skillsOrEmpty a.job_skills c).length : Rat)) * 100) ∧
        |ratePercent (skillsOrEmpty a.matching_skills c).length
              (skillsOrEmpty a.job_skills c).length -
            100 * ((skillsOrEmpty a.matching_skills c).length : Rat) /
              ((skillsOrEmpty a.job_skills c).length : Rat)| ≤
          (100 * ((skillsOrEmpty a.matching_skills c).length : Rat) /
            ((skillsOrEmpty a.job_skills c).length : Rat)) / 2 ^ 51) ∧
    ((skillsOrEmpty a.matching_skills c).length ≤ (skillsOrEmpty a.job_skills c).length →
      0 ≤ ratePercent (skillsOrEmpty a.matching_skills c).length
          (skillsOrEmpty a.job_skills c).length ∧
        ratePercent (skillsOrEmpty a.matching_skills c).length
          (skillsOrEmpty a.job_skills c).length ≤ 100) := by
  have hjob : readsOwn a.job_skills c := Or.inl (lookup_ne_none_of_mem_objectKeys _ _ hc)
  have hdef : (categoryItem a c).matchRate =
      JsNumber.finite (ratePercent (skillsOrEmpty a.matching_skills c).length
        (skillsOrEmpty a.job_skills c).length) := by
    simp only [categoryItem, lookupOrEmpty_of_readsOwn _ _ hjob,
      lookupOrEmpty_of_readsOwn _ _ hown, PropertyValue.length, rateOf]
  refine ⟨rfl, hdef, ?_, ?_, ?_⟩
  · intro h0
    rw [h0]
    simp [ratePercent]
  · intro hpos
    exact ⟨by rw [ratePercent, if_pos hpos], ratePercent_error _ _ hpos⟩
  · intro hle
    exact ratePercent_bounds _ _ hle

/-- C13, at a sample input: 11 of 20 skills give a rate between 0 and 100. -/
theorem rate_spec_witness :
    "skills" ∈ objectKeys elevenOfTwenty.job_skills ∧
      readsOwn elevenOfTwenty.matching_skills "skills" ∧
      (categoryItem elevenOfTwenty "skills").matchRate =
        JsNumber.finite (ratePercent 11 20) ∧
      0 ≤ ratePercent 11 20 ∧ ratePercent 11 20 ≤ 100 :=
  ⟨by decide, by unfold readsOwn; decide,
    (rate_spec elevenOfTwenty "skills" (by decide) (by unfold readsOwn; decide)).2.1,
    (rate_spec elevenOfTwenty "skills" (by decide) (by unfold readsOwn; decide)).2.2.2.2
      (by decide)⟩

end ResumeAnalyser
